import Mathlib

/-!
# Verification of the AI Image Enhance client

A shallow embedding of the three source files of the repository:

* `App` (the application state controller, including the prompt compiler
  inside `handleEnhanceClick`, `handleDownload`, `handleReset`,
  `handleResetSettings` and `handleFileSelect`),
* `services/geminiService.ts` (`enhanceImageWithGemini`),
* `components/ImageComparator.tsx` (`computedFilter`).

Pure string-building code is embedded as Lean functions on `Nat` and
`String`; the stateful React component is embedded as an explicit state
machine (`ControllerState`, `Action`, `step`), with asynchronous request
completions modelled as `deliver` actions that can occur at any time after
a request was issued (the code installs no guard on the completion
callbacks).  Handler invocations are modelled as always-available actions:
the visibility of a button in the rendered UI is not part of the
controller's core logic.
-/

namespace AiImageEnhance

/-- The `ArtisticEffect` union type shared by `App` and `ImageComparator`. -/
inductive ArtisticEffect where
  | none
  | vintage
  | bw
  | sepia
  | sketch
  | oilPainting
  | cartoon
deriving DecidableEq

/-- The `AppState` union type of `App` (the `RequestStatus` of the spec). -/
inductive AppState where
  | idle
  | loading
  | success
  | error
deriving DecidableEq

/-! ## JavaScript string helpers

`String.prototype.includes` and falsiness of `undefined | ''`, modelled on
character lists so that everything evaluates by `decide`. -/

/-- `pat` is a prefix of `l`, as a boolean on character lists. -/
def charListIsPrefixOf : List Char → List Char → Bool
  | [], _ => true
  | _ :: _, [] => false
  | a :: as, b :: bs => a == b && charListIsPrefixOf as bs

/-- `pat` occurs as a contiguous substring of the second list. -/
def charListContains (pat : List Char) : List Char → Bool
  | [] => charListIsPrefixOf pat []
  | c :: rest => charListIsPrefixOf pat (c :: rest) || charListContains pat rest

/-- JavaScript `s.includes(pat)`. -/
def includesSubstr (s pat : String) : Bool :=
  charListContains pat.data s.data

/-- JavaScript `s.endsWith(suffixStr)` (used only to state facts about
file-name extensions). -/
def endsWithStr (s suffixStr : String) : Bool :=
  charListIsPrefixOf suffixStr.data.reverse s.data.reverse

/-- A JavaScript `string | null` field is falsy when it is `null` or the
empty string. -/
def optStrFalsy : Option String → Bool
  | Option.none => true
  | some s => s.isEmpty

/-! ## Prompt Compiler (`handleEnhanceClick`, lines 50–79 of `App`) -/

/-- The fixed base sentence of the prompt. -/
def basePrompt : String :=
  "Fix this old and damaged photo. Improve its overall quality, and adjust the lighting and contrast to make it look more vibrant and clear."

/-- The brightness clause, appended when `brightness !== 100`. -/
def brightnessClause (brightness : Nat) : String :=
  " Adjust the brightness to be around " ++ toString brightness ++ "%."

/-- The contrast clause, appended when `contrast !== 100`. -/
def contrastClause (contrast : Nat) : String :=
  " Adjust the contrast to be around " ++ toString contrast ++ "%."

/-- The noise-reduction clause, appended when `noiseReduction > 0`. -/
def noiseReductionClause (noiseReduction : Nat) : String :=
  " Apply noise reduction at an intensity of about " ++ toString noiseReduction ++ "%."

/-- The `switch (artisticEffect)` of `handleEnhanceClick`: the clause each
effect appends (the `none` case appends nothing). -/
def effectClause : ArtisticEffect → String
  | .none => ""
  | .vintage => " Apply a vintage effect to the image."
  | .bw => " Convert the image to artistic black and white, preserving details."
  | .sepia => " Apply a warm sepia tone to the image."
  | .sketch => " Turn the image into a pencil sketch, emphasizing lines and shading."
  | .oilPainting => " Make the image look like an oil painting with visible brush strokes and rich colors."
  | .cartoon => " Apply a cartoon effect to the image with vibrant colors and bold outlines."

/-- The prompt built by `handleEnhanceClick` before calling the client. -/
def buildPrompt (brightness contrast noiseReduction : Nat)
    (artisticEffect : ArtisticEffect) : String :=
  let p1 := basePrompt
  let p2 := if brightness ≠ 100 then p1 ++ brightnessClause brightness else p1
  let p3 := if contrast ≠ 100 then p2 ++ contrastClause contrast else p2
  let p4 := if noiseReduction > 0 then p3 ++ noiseReductionClause noiseReduction else p3
  p4 ++ effectClause artisticEffect

/-! ## Preview Filter Compiler (`computedFilter` in `ImageComparator`) -/

/-- `computedFilter`: the CSS filter string of the preview, exactly as the
`useMemo` body builds it. -/
def computedFilter (brightness contrast : Nat) (artisticEffect : ArtisticEffect) : String :=
  let filter := "brightness(" ++ toString brightness ++ "%) contrast(" ++ toString contrast ++ "%)"
  match artisticEffect with
  | .vintage => filter ++ " sepia(60%)"
  | .bw => filter ++ " grayscale(100%)"
  | .sepia => filter ++ " sepia(100%)"
  | .sketch => filter ++ " grayscale(100%) contrast(150%) brightness(110%)"
  | .oilPainting => filter ++ " saturate(180%) contrast(130%)"
  | .cartoon => filter ++ " saturate(200%) contrast(150%)"
  | .none => filter

/-- Names of the visual operations appearing in the §4.1 table. -/
inductive FilterOpName where
  | brightness
  | contrast
  | sepia
  | grayscale
  | saturate
deriving DecidableEq

/-- A named visual operation with a percentage magnitude. -/
structure FilterOp where
  name : FilterOpName
  percent : Nat
deriving DecidableEq

/-- CSS name of a filter operation. -/
def filterOpNameText : FilterOpName → String
  | .brightness => "brightness"
  | .contrast => "contrast"
  | .sepia => "sepia"
  | .grayscale => "grayscale"
  | .saturate => "saturate"

/-- Rendering of one operation, `name(p%)`. -/
def renderOp (op : FilterOp) : String :=
  filterOpNameText op.name ++ "(" ++ toString op.percent ++ "%)"

/-- Rendering of an ordered operation sequence, space separated. -/
def renderOps : List FilterOp → String
  | [] => ""
  | [op] => renderOp op
  | op :: rest => renderOp op ++ " " ++ renderOps rest

/-- The effect-specific operations of the table in §4.1 of the spec. -/
def effectOps : ArtisticEffect → List FilterOp
  | .none => []
  | .vintage => [⟨.sepia, 60⟩]
  | .bw => [⟨.grayscale, 100⟩]
  | .sepia => [⟨.sepia, 100⟩]
  | .sketch => [⟨.grayscale, 100⟩, ⟨.contrast, 150⟩, ⟨.brightness, 110⟩]
  | .oilPainting => [⟨.saturate, 180⟩, ⟨.contrast, 130⟩]
  | .cartoon => [⟨.saturate, 200⟩, ⟨.contrast, 150⟩]

/-- The full ordered operation sequence of the preview filter:
`brightness(b%)`, `contrast(c%)`, then the effect-specific operations. -/
def filterOps (brightness contrast : Nat) (artisticEffect : ArtisticEffect) : List FilterOp :=
  ⟨.brightness, brightness⟩ :: ⟨.contrast, contrast⟩ :: effectOps artisticEffect

/-! ## Enhancement Client (`enhanceImageWithGemini`) -/

/-- An `inlineData` payload of a response part. -/
structure InlineData where
  data : String
  mimeType : String
deriving DecidableEq

/-- A content part of the remote response; text parts carry no
`inlineData`. -/
structure Part where
  inlineData : Option InlineData
deriving DecidableEq

/-- The `content` of a candidate. -/
structure Content where
  parts : List Part
deriving DecidableEq

/-- A response candidate; `content` may be absent. -/
structure Candidate where
  content : Option Content
deriving DecidableEq

/-- The structured remote response. -/
structure GenResponse where
  candidates : List Candidate
deriving DecidableEq

/-- The outcome of the underlying `ai.models.generateContent` call: either
a structured response or a thrown error carrying a message. -/
inductive CallOutcome where
  | success (resp : GenResponse)
  | failure (errMsg : String)
deriving DecidableEq

/-- Message thrown on a 429-classified error. -/
def rateLimitMessage : String := "Request limit exceeded. Please try again later."

/-- Message thrown on any other failure. -/
def genericFailureMessage : String :=
  "Failed to enhance the image. Please check the console for more details."

/-- Message of the internal error thrown when no part carries image data. -/
def noImageMessage : String := "No image found in the API response."

/-- `response.candidates?.[0]?.content?.parts?.find(part => part.inlineData)`. -/
def findImagePart (r : GenResponse) : Option Part :=
  match r.candidates with
  | [] => Option.none
  | cand :: _ =>
    match cand.content with
    | Option.none => Option.none
    | some content => content.parts.find? (fun p => p.inlineData.isSome)

/-- The inline data of the first image part found, when any. -/
def firstInlineData (r : GenResponse) : Option InlineData :=
  match findImagePart r with
  | some p => p.inlineData
  | Option.none => Option.none

/-- The data URL built from an inline-data payload. -/
def dataUrlOf (d : InlineData) : String :=
  "data:" ++ d.mimeType ++ ";base64," ++ d.data

/-- Body of the `try` block: return the data URL of the first image part,
or throw `noImageMessage`. -/
def enhanceAttempt : CallOutcome → Except String String
  | .failure msg => .error msg
  | .success resp =>
    match findImagePart resp with
    | some p =>
      match p.inlineData with
      | some d => .ok (dataUrlOf d)
      | Option.none => .error noImageMessage
    | Option.none => .error noImageMessage

/-- `enhanceImageWithGemini`: the `try` body wrapped in the `catch` that
reclassifies every error by whether its message contains `"429"`. -/
def enhanceImageWithGemini (outcome : CallOutcome) : Except String String :=
  match enhanceAttempt outcome with
  | .ok url => .ok url
  | .error msg =>
    .error (if includesSubstr msg "429" then rateLimitMessage else genericFailureMessage)

/-! ## Application State Controller (`App`) -/

/-- The state owned by `App`: the React `useState` cells, plus `pending`
(completions of issued requests not yet delivered) and `issued` (how many
times the network client has been invoked), which count the asynchronous
calls the code itself makes. -/
structure ControllerState where
  originalImage : Option String
  originalMimeType : Option String
  enhancedImage : Option String
  appState : AppState
  error : Option String
  brightness : Nat
  contrast : Nat
  noiseReduction : Nat
  artisticEffect : ArtisticEffect
  lastPrompt : Option String
  pending : Nat
  issued : Nat
deriving DecidableEq

/-- The state before any interaction. -/
def initState : ControllerState where
  originalImage := Option.none
  originalMimeType := Option.none
  enhancedImage := Option.none
  appState := .idle
  error := Option.none
  brightness := 100
  contrast := 100
  noiseReduction := 0
  artisticEffect := .none
  lastPrompt := Option.none
  pending := 0
  issued := 0

/-- `handleResetSettings`. -/
def resetSettingsOf (s : ControllerState) : ControllerState :=
  { s with brightness := 100, contrast := 100, noiseReduction := 0, artisticEffect := .none }

/-- The events the controller reacts to: user-handler invocations and the
asynchronous completion of an issued request. -/
inductive Action where
  | fileSelectOk (dataUrl mime : String)
  | fileSelectErr
  | enhanceClick
  | deliver (outcome : CallOutcome)
  | resetAll
  | resetSettings
  | setBrightness (v : Nat)
  | setContrast (v : Nat)
  | setNoiseReduction (v : Nat)
  | setArtisticEffect (e : ArtisticEffect)
deriving DecidableEq

/-- One transition of the controller.  `fileSelectOk`/`fileSelectErr` are
the two callbacks of `handleFileSelect`; `enhanceClick` is
`handleEnhanceClick` up to the `await`; `deliver` is the resumption after
the `await` (success branch or `catch`), which the code runs whenever a
previously issued request completes, with no staleness guard; the sliders
clamp to their HTML `min`/`max` ranges. -/
def step (a : Action) (s : ControllerState) : ControllerState :=
  match a with
  | .fileSelectOk dataUrl mime =>
    resetSettingsOf
      { s with
        originalImage := some dataUrl
        originalMimeType := some mime
        enhancedImage := Option.none
        error := Option.none
        appState := .idle }
  | .fileSelectErr =>
    { s with error := some "Error reading the file.", appState := .error }
  | .enhanceClick =>
    if optStrFalsy s.originalImage || optStrFalsy s.originalMimeType then
      { s with error := some "Please select an image first.", appState := .error }
    else
      { s with
        appState := .loading
        error := Option.none
        enhancedImage := Option.none
        lastPrompt := some (buildPrompt s.brightness s.contrast s.noiseReduction s.artisticEffect)
        pending := s.pending + 1
        issued := s.issued + 1 }
  | .deliver outcome =>
    if s.pending = 0 then s
    else
      match enhanceImageWithGemini outcome with
      | .ok result =>
        { s with pending := s.pending - 1, enhancedImage := some result, appState := .success }
      | .error msg =>
        { s with pending := s.pending - 1, error := some msg, appState := .error }
  | .resetAll =>
    resetSettingsOf
      { s with
        originalImage := Option.none
        enhancedImage := Option.none
        originalMimeType := Option.none
        error := Option.none
        appState := .idle }
  | .resetSettings => resetSettingsOf s
  | .setBrightness v =>
    if 50 ≤ v ∧ v ≤ 150 then { s with brightness := v } else s
  | .setContrast v =>
    if 50 ≤ v ∧ v ≤ 150 then { s with contrast := v } else s
  | .setNoiseReduction v =>
    if v ≤ 100 then { s with noiseReduction := v } else s
  | .setArtisticEffect e => { s with artisticEffect := e }

/-- Run a list of actions, first action first, from a given state. -/
def runFrom (s : ControllerState) : List Action → ControllerState
  | [] => s
  | a :: rest => runFrom (step a s) rest

/-- Run a list of actions from the initial state. -/
def run (acts : List Action) : ControllerState :=
  runFrom initState acts

/-- A state is reachable when some action sequence produces it. -/
def Reachable (s : ControllerState) : Prop :=
  ∃ acts, run acts = s

/-- `handleDownload`: for a present enhanced image, the exported file name
as a function of `Date.now()`; `Option.none` when the guard returns. -/
def handleDownload (s : ControllerState) (now : Nat) : Option String :=
  if optStrFalsy s.enhancedImage then Option.none
  else some ("enhanced-image-" ++ toString now ++ ".png")

/-! ## Sample values used by witnesses and counterexamples -/

deriving instance DecidableEq for Except

set_option maxRecDepth 8192

/-- A remote response whose first candidate carries one inline jpeg part. -/
def sampleJpegResponse : GenResponse where
  candidates := [{ content := some { parts := [{ inlineData := some { data := "QUJD", mimeType := "image/jpeg" } }] } }]

/-- A remote response whose only part is a text part (no inline data). -/
def textOnlyResponse : GenResponse where
  candidates := [{ content := some { parts := [{ inlineData := Option.none }] } }]

/-! ## Claims -/

/-- Claim C1: for every brightness and contrast in `[50,150]`,
noiseReduction in `[0,100]` and artistic effect, the prompt equals the
fixed base sentence followed, in this order, by a brightness clause iff
`brightness ≠ 100`, a contrast clause iff `contrast ≠ 100`, a
noise-reduction clause iff `noiseReduction > 0` and an effect clause iff
the effect is not `none`; with all settings at defaults the prompt is
exactly the base sentence. -/
theorem c1_prompt_compiler_structure :
    (∀ (b c n : Nat) (e : ArtisticEffect),
      50 ≤ b → b ≤ 150 → 50 ≤ c → c ≤ 150 → n ≤ 100 →
      buildPrompt b c n e =
        basePrompt
          ++ (if b ≠ 100 then brightnessClause b else "")
          ++ (if c ≠ 100 then contrastClause c else "")
          ++ (if n > 0 then noiseReductionClause n else "")
          ++ (if e = ArtisticEffect.none then "" else effectClause e))
    ∧ buildPrompt 100 100 0 ArtisticEffect.none = basePrompt := by
  constructor
  · intro b c n e _ _ _ _ _
    have he : (if e = ArtisticEffect.none then "" else effectClause e) = effectClause e := by
      cases e <;> simp [effectClause]
    rw [he]
    unfold buildPrompt
    split_ifs <;> simp [String.append_empty]
  · rfl

/-- Witness for C1 at brightness 120, contrast 80, noise reduction 30 and
effect sepia (the §8 scenario). -/
theorem c1_prompt_compiler_structure_witness :
    buildPrompt 120 80 30 ArtisticEffect.sepia =
      basePrompt ++ brightnessClause 120 ++ contrastClause 80
        ++ noiseReductionClause 30 ++ effectClause ArtisticEffect.sepia := by
  have h := c1_prompt_compiler_structure.1 120 80 30 ArtisticEffect.sepia
    (by decide) (by decide) (by decide) (by decide) (by decide)
  simpa using h

/-- Decimal rendering of the concrete magnitude 60. -/
theorem toString_nat_60 : toString (60 : Nat) = "60" := rfl

/-- Decimal rendering of the concrete magnitude 100. -/
theorem toString_nat_100 : toString (100 : Nat) = "100" := rfl

/-- Decimal rendering of the concrete magnitude 110. -/
theorem toString_nat_110 : toString (110 : Nat) = "110" := rfl

/-- Decimal rendering of the concrete magnitude 130. -/
theorem toString_nat_130 : toString (130 : Nat) = "130" := rfl

/-- Decimal rendering of the concrete magnitude 150. -/
theorem toString_nat_150 : toString (150 : Nat) = "150" := rfl

/-- Decimal rendering of the concrete magnitude 180. -/
theorem toString_nat_180 : toString (180 : Nat) = "180" := rfl

/-- Decimal rendering of the concrete magnitude 200. -/
theorem toString_nat_200 : toString (200 : Nat) = "200" := rfl

/-- Claim C5: for every brightness, contrast and effect, the preview
filter is the rendering of the ordered operation sequence
`brightness(b%)`, `contrast(c%)` followed by exactly the effect-specific
operations of the §4.1 table, whose count is between 0 and 3. -/
theorem c5_preview_filter_compiler :
    ∀ (b c : Nat) (e : ArtisticEffect),
      computedFilter b c e = renderOps (filterOps b c e)
      ∧ (filterOps b c e).length = 2 + (effectOps e).length
      ∧ (effectOps e).length ≤ 3 := by
  intro b c e
  refine ⟨?_, ?_, ?_⟩
  · cases e <;>
      (apply String.ext;
       simp [computedFilter, filterOps, effectOps, renderOps, renderOp, filterOpNameText,
         toString_nat_60, toString_nat_100, toString_nat_110, toString_nat_130,
         toString_nat_150, toString_nat_180, toString_nat_200])
  · cases e <;> simp [filterOps, effectOps]
  · cases e <;> simp [effectOps]

/-- Claim C6: when the underlying call fails with a rate-limit (429)
error, the client fails with the rate-limited message, which instructs the
caller to retry later and differs from the generic failure message and
from the controller's local error messages. -/
theorem c6_rate_limited :
    ∀ msg : String, includesSubstr msg "429" = true →
      enhanceImageWithGemini (.failure msg) = .error rateLimitMessage
      ∧ includesSubstr rateLimitMessage "try again later" = true
      ∧ rateLimitMessage ≠ genericFailureMessage
      ∧ rateLimitMessage ≠ "Please select an image first."
      ∧ rateLimitMessage ≠ "Error reading the file." := by
  intro msg h
  refine ⟨?_, by decide, by decide, by decide, by decide⟩
  simp [enhanceImageWithGemini, enhanceAttempt, h]

/-- Witness for C6 on a simulated 429-class transport error. -/
theorem c6_rate_limited_witness :
    enhanceImageWithGemini (.failure "HTTP 429 Too Many Requests") = .error rateLimitMessage :=
  (c6_rate_limited "HTTP 429 Too Many Requests" (by decide)).1

/-- Claim C7: for every response in which no candidate part carries
inline image data, the client fails with the generic failure message and
never returns an image. -/
theorem c7_no_image_in_response :
    ∀ resp : GenResponse,
      (∀ cand ∈ resp.candidates, ∀ content, cand.content = some content →
        ∀ p ∈ content.parts, p.inlineData = Option.none) →
      enhanceImageWithGemini (.success resp) = .error genericFailureMessage
      ∧ ∀ url, enhanceImageWithGemini (.success resp) ≠ .ok url := by
  intro resp h
  have hfind : findImagePart resp = Option.none := by
    rcases hc : resp.candidates with _ | ⟨cand, rest⟩
    · simp [findImagePart, hc]
    · rcases hcc : cand.content with _ | content
      · simp [findImagePart, hc, hcc]
      · have hnone : ∀ p ∈ content.parts, p.inlineData = Option.none := by
          intro p hp
          exact h cand (by rw [hc]; exact List.mem_cons_self cand rest) content hcc p hp
        simp only [findImagePart, hc, hcc]
        rw [List.find?_eq_none]
        intro p hp
        simp [hnone p hp]
  have h429 : includesSubstr noImageMessage "429" = false := by decide
  have herr : enhanceImageWithGemini (.success resp) = .error genericFailureMessage := by
    simp [enhanceImageWithGemini, enhanceAttempt, hfind, h429]
  exact ⟨herr, fun url hurl => by rw [herr] at hurl; cases hurl⟩

/-- Witness for C7 on a response containing only a text part. -/
theorem c7_no_image_in_response_witness :
    enhanceImageWithGemini (.success textOnlyResponse) = .error genericFailureMessage := by
  have h := c7_no_image_in_response textOnlyResponse (by
    intro cand hcand content hcontent p hp
    simp [textOnlyResponse] at hcand
    subst hcand
    simp at hcontent
    subst hcontent
    simp at hp
    subst hp
    rfl)
  exact h.1

/-- Claim C9: on a successful remote call whose first candidate has an
inline-image part, the client returns the data blob built from that part,
which begins by declaring the part's MIME type, and a controller holding a
pending request stores it as EnhancedImage with RequestStatus success. -/
theorem c9_success_data_blob :
    ∀ (r : GenResponse) (d : InlineData),
      firstInlineData r = some d →
      enhanceImageWithGemini (.success r) = .ok (dataUrlOf d)
      ∧ (∃ rest, dataUrlOf d = ("data:" ++ d.mimeType) ++ rest)
      ∧ ∀ s : ControllerState, 0 < s.pending →
          (step (.deliver (.success r)) s).enhancedImage = some (dataUrlOf d)
          ∧ (step (.deliver (.success r)) s).appState = .success := by
  intro r d h
  have hattempt : enhanceAttempt (.success r) = .ok (dataUrlOf d) := by
    rcases hf : findImagePart r with _ | p
    · rw [firstInlineData, hf] at h; cases h
    · rw [firstInlineData, hf] at h
      simp at h
      simp [enhanceAttempt, hf, h]
  have henh : enhanceImageWithGemini (.success r) = .ok (dataUrlOf d) := by
    simp [enhanceImageWithGemini, hattempt]
  refine ⟨henh, ⟨";base64," ++ d.data, by simp [dataUrlOf, String.append_assoc]⟩, ?_⟩
  intro s hs
  have hp : ¬ s.pending = 0 := Nat.pos_iff_ne_zero.mp hs
  simp [step, hp, henh]

/-- Witness for C9 on a response carrying an `image/jpeg` inline part,
delivered to a controller that has just issued a request. -/
theorem c9_success_data_blob_witness :
    enhanceImageWithGemini (.success sampleJpegResponse) = .ok "data:image/jpeg;base64,QUJD"
    ∧ (step (.deliver (.success sampleJpegResponse))
        (run [.fileSelectOk "imgA" "image/png", .enhanceClick])).appState = .success := by
  have h := c9_success_data_blob sampleJpegResponse
    { data := "QUJD", mimeType := "image/jpeg" } (by decide)
  exact ⟨by simpa using h.1,
    (h.2.2 (run [.fileSelectOk "imgA" "image/png", .enhanceClick]) (by decide)).2⟩

/-- Claim C10: every rejection of the client carries one of exactly two
fixed messages; on an underlying error the choice is determined solely by
whether the error message contains the substring `"429"`, and the
missing-image case gets the generic message. -/
theorem c10_two_rejection_messages :
    (∀ (o : CallOutcome) (m : String),
      enhanceImageWithGemini o = .error m → m = rateLimitMessage ∨ m = genericFailureMessage)
    ∧ (∀ msg : String,
        enhanceImageWithGemini (.failure msg) =
          .error (if includesSubstr msg "429" then rateLimitMessage else genericFailureMessage))
    ∧ (∀ r : GenResponse, firstInlineData r = Option.none →
        enhanceImageWithGemini (.success r) = .error genericFailureMessage)
    ∧ rateLimitMessage ≠ genericFailureMessage := by
  refine ⟨?_, ?_, ?_, by decide⟩
  · intro o m h
    rcases ha : enhanceAttempt o with msg | url
    · rw [enhanceImageWithGemini, ha] at h
      simp only [Except.error.injEq] at h
      by_cases hb : includesSubstr msg "429" = true
      · rw [if_pos hb] at h
        exact Or.inl h.symm
      · rw [if_neg hb] at h
        exact Or.inr h.symm
    · rw [enhanceImageWithGemini, ha] at h
      cases h
  · intro msg
    simp [enhanceImageWithGemini, enhanceAttempt]
  · intro r h
    have h429 : includesSubstr noImageMessage "429" = false := by decide
    rcases hf : findImagePart r with _ | p
    · simp [enhanceImageWithGemini, enhanceAttempt, hf, h429]
    · rw [firstInlineData, hf] at h
      simp at h
      simp [enhanceImageWithGemini, enhanceAttempt, hf, h, h429]

/-- Witness for C10: a 429-mentioning message (even as part of `4290`) is
classified rate-limited, any other message gets the generic message. -/
theorem c10_two_rejection_messages_witness :
    enhanceImageWithGemini (.failure "fetch failed with status 4290") = .error rateLimitMessage
    ∧ enhanceImageWithGemini (.failure "network down") = .error genericFailureMessage := by
  have h := c10_two_rejection_messages
  constructor
  · rw [h.2.1 "fetch failed with status 4290"]
    rw [show includesSubstr "fetch failed with status 4290" "429" = true from by decide]
    rfl
  · rw [h.2.1 "network down"]
    rw [show includesSubstr "network down" "429" = false from by decide]
    rfl

/-- Claim C8: if the enhance action fires with no SourceImage, the
controller goes directly to the error state with the local validation
message, and the network client is not invoked (neither the issued count
nor the pending count changes). -/
theorem c8_enhance_without_image :
    ∀ s : ControllerState, s.originalImage = Option.none →
      (step .enhanceClick s).appState = .error
      ∧ (step .enhanceClick s).error = some "Please select an image first."
      ∧ (step .enhanceClick s).issued = s.issued
      ∧ (step .enhanceClick s).pending = s.pending := by
  intro s h
  have hf : optStrFalsy s.originalImage = true := by rw [h]; rfl
  simp [step, hf]

/-- Witness for C8 at the initial state. -/
theorem c8_enhance_without_image_witness :
    (step .enhanceClick initState).appState = .error
    ∧ (step .enhanceClick initState).error = some "Please select an image first."
    ∧ (step .enhanceClick initState).issued = initState.issued
    ∧ (step .enhanceClick initState).pending = initState.pending :=
  c8_enhance_without_image initState rfl

/-- The invariant the controller actually maintains in every reachable
state: the idle state carries no enhanced image and no error, and the
loading state additionally has a (truthy) source image. -/
def ControllerInv (s : ControllerState) : Prop :=
  (s.appState = .idle → s.enhancedImage = Option.none ∧ s.error = Option.none)
  ∧ (s.appState = .loading →
      s.enhancedImage = Option.none ∧ s.error = Option.none
      ∧ optStrFalsy s.originalImage = false ∧ optStrFalsy s.originalMimeType = false)

/-- Every transition preserves `ControllerInv`. -/
theorem step_preserves_inv (a : Action) (s : ControllerState)
    (h : ControllerInv s) : ControllerInv (step a s) := by
  cases a with
  | fileSelectOk dataUrl mime => simp [ControllerInv, step, resetSettingsOf]
  | fileSelectErr => simp [ControllerInv, step]
  | enhanceClick =>
    by_cases hg : (optStrFalsy s.originalImage || optStrFalsy s.originalMimeType) = true
    · simp [ControllerInv, step, hg]
    · simp only [Bool.or_eq_true, not_or, Bool.not_eq_true] at hg
      simp [ControllerInv, step, hg.1, hg.2]
  | deliver outcome =>
    by_cases hp : s.pending = 0
    · simpa [step, hp] using h
    · rcases he : enhanceImageWithGemini outcome with msg | result
      · simp [ControllerInv, step, hp, he]
      · simp [ControllerInv, step, hp, he]
  | resetAll => simp [ControllerInv, step, resetSettingsOf]
  | resetSettings =>
    simpa [ControllerInv, step, resetSettingsOf] using h
  | setBrightness v =>
    by_cases hv : 50 ≤ v ∧ v ≤ 150
    · simpa [ControllerInv, step, hv] using h
    · simpa [step, hv] using h
  | setContrast v =>
    by_cases hv : 50 ≤ v ∧ v ≤ 150
    · simpa [ControllerInv, step, hv] using h
    · simpa [step, hv] using h
  | setNoiseReduction v =>
    by_cases hv : v ≤ 100
    · simpa [ControllerInv, step, hv] using h
    · simpa [step, hv] using h
  | setArtisticEffect e =>
    simpa [ControllerInv, step] using h

/-- Running any action list preserves `ControllerInv`. -/
theorem runFrom_preserves_inv (acts : List Action) :
    ∀ s : ControllerState, ControllerInv s → ControllerInv (runFrom s acts) := by
  induction acts with
  | nil => intro s h; exact h
  | cons a rest ih => intro s h; exact ih (step a s) (step_preserves_inv a s h)

/-- `ControllerInv` holds in every reachable state. -/
theorem run_inv (acts : List Action) : ControllerInv (run acts) := by
  have hinit : ControllerInv initState := by simp [ControllerInv, initState]
  exact runFrom_preserves_inv acts initState hinit

/-- A loading-then-reset-then-late-success trace followed by an enhance
click on the now-empty state: it leaves a non-null EnhancedImage in the
error state. -/
def staleEnhancedTrace : List Action :=
  [.fileSelectOk "imgA" "image/png", .enhanceClick, .resetAll,
   .deliver (.success sampleJpegResponse), .enhanceClick]

/-- A double-click trace whose first completion fails and second succeeds:
it leaves a non-null ErrorInfo in the success state. -/
def staleErrorTrace : List Action :=
  [.fileSelectOk "imgA" "image/png", .enhanceClick, .enhanceClick,
   .deliver (.failure "boom"), .deliver (.success sampleJpegResponse)]

/-- Counterexample to claim C2: reachable states violate each conjunct of
the claimed invariant.  After an enhance click on the initial state the
SourceImage is null yet the status is error, not idle; after a reset
during a request whose completion arrives late, followed by a guarded
enhance click, EnhancedImage is non-null with status error; after two
overlapping requests whose completions arrive error-then-success,
ErrorInfo is non-null with status success; and a slider event on the
initial state leaves SourceImage null with non-default settings. -/
theorem c2_invariant_counterexample :
    (Reachable (run [.enhanceClick])
      ∧ (run [.enhanceClick]).originalImage = Option.none
      ∧ (run [.enhanceClick]).appState ≠ .idle)
    ∧ ((run staleEnhancedTrace).enhancedImage ≠ Option.none
      ∧ (run staleEnhancedTrace).appState ≠ .success)
    ∧ ((run staleErrorTrace).error ≠ Option.none
      ∧ (run staleErrorTrace).appState ≠ .error)
    ∧ ((run [.setBrightness 120]).originalImage = Option.none
      ∧ (run [.setBrightness 120]).appState = .idle
      ∧ (run [.setBrightness 120]).brightness ≠ 100) := by
  refine ⟨⟨⟨[.enhanceClick], rfl⟩, by decide, by decide⟩, ?_, ?_, ?_⟩
  · exact ⟨by decide, by decide⟩
  · exact ⟨by decide, by decide⟩
  · exact ⟨by decide, by decide, by decide⟩

/-- Claim C2 as amended: in every reachable state, EnhancedImage is
non-null only if RequestStatus is success or error, ErrorInfo is non-null
only if RequestStatus is error or success, and SourceImage is null only
when RequestStatus is not loading. -/
theorem c2_invariant_amended :
    ∀ acts : List Action,
      ((run acts).enhancedImage ≠ Option.none →
        (run acts).appState = .success ∨ (run acts).appState = .error)
      ∧ ((run acts).error ≠ Option.none →
        (run acts).appState = .error ∨ (run acts).appState = .success)
      ∧ ((run acts).originalImage = Option.none → (run acts).appState ≠ .loading) := by
  intro acts
  have hinv := run_inv acts
  rcases hinv with ⟨hidle, hloading⟩
  refine ⟨?_, ?_, ?_⟩
  · intro henh
    rcases hst : (run acts).appState with _ | _ | _ | _
    · exact absurd (hidle hst).1 henh
    · exact absurd (hloading hst).1 henh
    · exact Or.inl rfl
    · exact Or.inr rfl
  · intro herr
    rcases hst : (run acts).appState with _ | _ | _ | _
    · exact absurd (hidle hst).2 herr
    · exact absurd (hloading hst).2.1 herr
    · exact Or.inr rfl
    · exact Or.inl rfl
  · intro horig hst
    have := (hloading hst).2.2.1
    rw [horig] at this
    cases this

/-- Witness for the amended C2 on a trace ending in a delivered success. -/
theorem c2_invariant_amended_witness :
    (run [.fileSelectOk "imgA" "image/png", .enhanceClick,
      .deliver (.success sampleJpegResponse)]).appState = .success
    ∨ (run [.fileSelectOk "imgA" "image/png", .enhanceClick,
      .deliver (.success sampleJpegResponse)]).appState = .error :=
  (c2_invariant_amended
    [.fileSelectOk "imgA" "image/png", .enhanceClick,
      .deliver (.success sampleJpegResponse)]).1 (by decide)

/-- Counterexample to claim C3: the core logic enforces neither
single-flight nor freshness.  From a loading state a further enhance
action invokes the client a second time (the issued count reaches 2), and
after a reset performed while a request is in flight, the late completion
still overwrites the state: it stores a stale EnhancedImage and sets the
status to success. -/
theorem c3_single_flight_counterexample :
    ((run [.fileSelectOk "imgA" "image/png", .enhanceClick]).appState = .loading
      ∧ (run [.fileSelectOk "imgA" "image/png", .enhanceClick]).issued = 1
      ∧ (run [.fileSelectOk "imgA" "image/png", .enhanceClick, .enhanceClick]).issued = 2)
    ∧ ((run [.fileSelectOk "imgA" "image/png", .enhanceClick, .resetAll]).appState = .idle
      ∧ (run [.fileSelectOk "imgA" "image/png", .enhanceClick, .resetAll]).enhancedImage
          = Option.none
      ∧ (run [.fileSelectOk "imgA" "image/png", .enhanceClick, .resetAll,
          .deliver (.success sampleJpegResponse)]).appState = .success
      ∧ (run [.fileSelectOk "imgA" "image/png", .enhanceClick, .resetAll,
          .deliver (.success sampleJpegResponse)]).enhancedImage
          = some "data:image/jpeg;base64,QUJD") := by
  exact ⟨⟨by decide, by decide, by decide⟩, by decide, by decide, by decide, by decide⟩

/-- Claim C3 as amended: the core logic does not guard against either
situation — while RequestStatus is loading, a further enhance action with
an image present always invokes the client again, and whenever a request
completion is delivered (in particular after a reset), a successful result
is stored as EnhancedImage with RequestStatus success; single-flight is
obtained only by the UI hiding the trigger while loading. -/
theorem c3_single_flight_amended :
    (∀ s : ControllerState, s.appState = .loading →
      optStrFalsy s.originalImage = false → optStrFalsy s.originalMimeType = false →
      (step .enhanceClick s).issued = s.issued + 1
      ∧ (step .enhanceClick s).pending = s.pending + 1)
    ∧ (∀ (s : ControllerState) (o : CallOutcome) (result : String),
        0 < s.pending → enhanceImageWithGemini o = .ok result →
        (step (.deliver o) s).enhancedImage = some result
        ∧ (step (.deliver o) s).appState = .success) := by
  constructor
  · intro s _ h1 h2
    simp [step, h1, h2]
  · intro s o result hp hok
    have hp0 : ¬ s.pending = 0 := Nat.pos_iff_ne_zero.mp hp
    simp [step, hp0, hok]

/-- Witness for the amended C3: a second click while loading, and a
delivery right after a reset. -/
theorem c3_single_flight_amended_witness :
    (step .enhanceClick (run [.fileSelectOk "imgA" "image/png", .enhanceClick])).issued
      = (run [.fileSelectOk "imgA" "image/png", .enhanceClick]).issued + 1
    ∧ (step (.deliver (.success sampleJpegResponse))
        (run [.fileSelectOk "imgA" "image/png", .enhanceClick, .resetAll])).appState
      = .success := by
  have h := c3_single_flight_amended
  exact ⟨(h.1 (run [.fileSelectOk "imgA" "image/png", .enhanceClick])
      (by decide) (by decide) (by decide)).1,
    (h.2 (run [.fileSelectOk "imgA" "image/png", .enhanceClick, .resetAll])
      (.success sampleJpegResponse) "data:image/jpeg;base64,QUJD"
      (by decide) (by decide)).2⟩

/-- Counterexample to claim C4: a jpeg enhancement result is downloaded
with a `.png` file name, not a jpeg extension. -/
theorem c4_download_extension_counterexample :
    (run [.fileSelectOk "imgA" "image/png", .enhanceClick,
      .deliver (.success sampleJpegResponse)]).enhancedImage
      = some "data:image/jpeg;base64,QUJD"
    ∧ handleDownload (run [.fileSelectOk "imgA" "image/png", .enhanceClick,
        .deliver (.success sampleJpegResponse)]) 0 = some "enhanced-image-0.png"
    ∧ endsWithStr "enhanced-image-0.png" ".jpeg" = false
    ∧ endsWithStr "enhanced-image-0.png" ".jpg" = false
    ∧ endsWithStr "enhanced-image-0.png" ".png" = true := by
  exact ⟨by decide, by decide, by decide, by decide, by decide⟩

/-- Claim C4 as amended: for every EnhancedImage, the download action
exports it as a file named `enhanced-image-<unix-timestamp>.png` — the
extension is always `.png`, regardless of the EnhancedImage's MIME
type. -/
theorem c4_download_name_amended :
    ∀ (s : ControllerState) (now : Nat), optStrFalsy s.enhancedImage = false →
      handleDownload s now = some ("enhanced-image-" ++ toString now ++ ".png") := by
  intro s now h
  simp [handleDownload, h]

/-- Witness for the amended C4 on the jpeg-result state at timestamp 0. -/
theorem c4_download_name_amended_witness :
    handleDownload (run [.fileSelectOk "imgA" "image/png", .enhanceClick,
      .deliver (.success sampleJpegResponse)]) 0
      = some ("enhanced-image-" ++ toString 0 ++ ".png") :=
  c4_download_name_amended
    (run [.fileSelectOk "imgA" "image/png", .enhanceClick,
      .deliver (.success sampleJpegResponse)]) 0 (by decide)
